import Mathlib

/-!
Verification development for the `hoster_benchmark` pipeline.

The Python sources are embedded shallowly:

* strings are manipulated as `List Char` (`Str`), since the relevant string
  operations (splitting, comparison) are ASCII-level and executable;
* Python `set`s become `Finset`s, dicts become association lists or functions;
* the `ipaddress` standard-library calls used by the sources are embedded in
  their IPv4 fragment (every address and CIDR occurring in the claims and in
  the counterexamples is IPv4; IPv6 inputs simply fail the IPv4 parse, which
  coincides with how the sources treat them wherever a claim depends on it);
* CPython float division is modelled as exact division in `ℚ`.

Each definition carries a comment naming the source function it embeds.
-/

namespace HosterBenchmark

/-- Strings viewed as explicit character lists, so that every operation is
executable by the kernel. -/
abbrev Str := List Char

/-- Python `str.split(sep)` for a one-character separator: splits into the
(possibly empty) pieces between occurrences of `sep`. -/
def splitOnChar (sep : Char) : Str → List Str
  | [] => [[]]
  | c :: rest =>
    match splitOnChar sep rest with
    | [] => [[c]]
    | h :: t => if c == sep then [] :: h :: t else (c :: h) :: t

/-- ASCII decimal digit test, as used by `str.isdigit` on octet strings. -/
def isDigitChar (c : Char) : Bool := decide (48 ≤ c.toNat) && decide (c.toNat ≤ 57)

/-- Value of a string of decimal digits (Python `int(s)` on an all-digit string). -/
def digitsToNat (cs : Str) : Nat := cs.foldl (fun n c => n * 10 + (c.toNat - 48)) 0

/-- One dotted-quad octet, per CPython `ipaddress._parse_octet`: non-empty, all
ASCII digits, at most 3 characters, value at most 255, and no leading zero. -/
def parseOctet : Str → Option Nat
  | [] => none
  | c :: rest =>
    if !(c :: rest).all isDigitChar then none
    else if 3 < (c :: rest).length then none
    else if c == '0' && !rest.isEmpty then none
    else
      let n := digitsToNat (c :: rest)
      if 255 < n then none else some n

/-- CPython `ipaddress.IPv4Address(s)`: a dotted quad of four octets, returned
as the 32-bit value. -/
def ipv4ToNat (cs : Str) : Option Nat :=
  match splitOnChar '.' cs with
  | [a, b, c, d] => do
    let a ← parseOctet a
    let b ← parseOctet b
    let c ← parseOctet c
    let d ← parseOctet d
    some (((a * 256 + b) * 256 + c) * 256 + d)
  | _ => none

/-- Numeric prefix length of a CIDR, per CPython `ipaddress._ip_int_from_prefix`
for IPv4: all ASCII digits with value at most 32 (dotted-netmask forms are not
used anywhere in this repository's data paths). -/
def parsePlen (cs : Str) : Option Nat :=
  if cs.isEmpty || !cs.all isDigitChar then none
  else
    let n := digitsToNat cs
    if 32 < n then none else some n

/-- Clear the low `k` bits of `a` (apply a `/ (32-k)` network mask). -/
def maskLow (a k : Nat) : Nat := a - a % 2 ^ k

/-- A parsed IPv4 network: masked 32-bit network address and prefix length. -/
abbrev NetV4 := Nat × Nat

/-- CPython `ipaddress.ip_network(s, strict)` in its IPv4 fragment: the string
splits on `/` into an address and an optional numeric prefix length; with
`strict = true` host bits must be zero (as in `Processor._find_owner`), with
`strict = false` they are masked away (as in `safe_parse_ranges` and
`cidr_count_addrs`). -/
def parseNetV4 (strict : Bool) (cs : Str) : Option NetV4 :=
  match splitOnChar '/' cs with
  | [addr] => (ipv4ToNat addr).map (fun a => (a, 32))
  | [addr, m] => do
    let a ← ipv4ToNat addr
    let p ← parsePlen m
    let base := maskLow a (32 - p)
    if strict && !(base == a) then none else some (base, p)
  | _ => none

/-- `ip_obj in network` for IPv4: the address masked to the network's prefix
length equals the network address. -/
def netContains (net : NetV4) (a : Nat) : Bool := maskLow a (32 - net.2) == net.1

/-- `Processor._find_owner` (src/hosterbenchmark/feeds/store.py lines 31-43):
parse the address, then scan the `hosters` mapping in insertion order and
return the organization of the **first** range that contains it; unparsable
addresses and prefixes are skipped; no match yields `"UNKNOWN"`. -/
def find_owner (hosters : List (String × List String)) (ip : String) : String :=
  match ipv4ToNat ip.data with
  | none => "UNKNOWN"
  | some a =>
    match hosters.findSome? (fun h =>
      if h.2.any (fun p =>
        match parseNetV4 true p.data with
        | some net => netContains net a
        | none => false)
      then some h.1 else none) with
    | some org => org
    | none => "UNKNOWN"

/-- The two-organization index of the spec's longest-prefix-match example,
in its registration (insertion) order. -/
def exampleHosters : List (String × List String) :=
  [("OrgA", ["10.0.0.0/8"]), ("OrgB", ["10.1.0.0/16"])]

/-- Python truthiness of an optional string (`record.get(k)` followed by
`if not v`): present and non-empty. -/
def truthy : Option String → Bool
  | none => false
  | some s => !(s == "")

/-- A record dict as passed to `Processor.ingest_record`; the fields are the
keys the processor and `ingest_and_export` ever touch (`"ip"`, `"domain"`,
`"feed"`, `"source"`, `"_org"`); an absent key is `none`. -/
structure FeedRecord where
  ip : Option String
  domain : Option String
  feed : Option String
  source : Option String
  orgTag : Option String
deriving DecidableEq

/-- The mutable counting state of `Processor` (store.py lines 28-29):
`seen : hoster → category-key → set of strings` and
`shared : hoster → set of shared ips` (both `defaultdict`s of sets, so absent
entries read as the empty set). -/
structure ProcState where
  seen : String → String → Finset String
  shared : String → Finset String

/-- The state of a freshly constructed `Processor`. -/
def emptyState : ProcState := ⟨fun _ _ => ∅, fun _ => ∅⟩

/-- `self.seen[owner][key].add(v)`. -/
def addSeen (s : ProcState) (owner key v : String) : ProcState :=
  { s with seen := fun o k =>
      if o = owner ∧ k = key then insert v (s.seen o k) else s.seen o k }

/-- `self.feed_policy.get(feed, True)`. -/
def policyGet (fp : List (String × Bool)) (feed : String) : Bool :=
  match fp.find? (fun e => e.1 == feed) with
  | some e => e.2
  | none => true

/-- `Processor.ingest_record` (store.py lines 45-62): drop the record unless
both `"ip"` and `"feed"` are present and truthy; attribute the ip via
`_find_owner`, dropping `UNKNOWN`; record the domain under
`f"{feed}_domains"` when the feed's policy enables domain counting and a
domain is present; always record the ip under `f"{feed}_ips"`. -/
def ingest_record (hosters : List (String × List String)) (fp : List (String × Bool))
    (s : ProcState) (r : FeedRecord) : ProcState :=
  if !truthy r.ip || !truthy r.feed then s
  else if find_owner hosters (r.ip.getD "") == "UNKNOWN" then s
  else
    addSeen
      (if policyGet fp (r.feed.getD "") && truthy r.domain
       then addSeen s (find_owner hosters (r.ip.getD ""))
              ((r.feed.getD "") ++ "_domains") (r.domain.getD "")
       else s)
      (find_owner hosters (r.ip.getD "")) ((r.feed.getD "") ++ "_ips") (r.ip.getD "")

/-- Fold `ingest_record` over a list of records, in order. -/
def ingestList (hosters : List (String × List String)) (fp : List (String × Bool))
    (s : ProcState) (rs : List FeedRecord) : ProcState :=
  rs.foldl (ingest_record hosters fp) s

/-- The per-category distinct-domain count reported by `Processor.results`
(store.py line 74): `len(self.seen[hoster].get(f"{feed}_domains", set()))`. -/
def groupedDomainCount (s : ProcState) (hoster feed : String) : Nat :=
  (s.seen hoster (feed ++ "_domains")).card

/-- The per-category distinct-ip count reported by `Processor.results`
(store.py line 75): `len(self.seen[hoster].get(f"{feed}_ips", set()))`. -/
def groupedIpCount (s : ProcState) (hoster feed : String) : Nat :=
  (s.seen hoster (feed ++ "_ips")).card

/-- The record dict built on the normal path of `ingest_and_export`
(runner.py line 309): `{"ip": ip, "domain": dom, "source": src}` — note the
feed name travels under the key `"source"`, and no `"feed"` key is set. -/
def runnerIpRecord (ip dom src : String) : FeedRecord :=
  ⟨some ip, some dom, none, some src, none⟩

/-- The record dict built for a mapped domain-only hit in `ingest_and_export`
(runner.py line 305): `{"domain": dom, "source": src, "_org": mappedOrg}`. -/
def runnerDomainRecord (dom src mappedOrg : String) : FeedRecord :=
  ⟨none, some dom, none, some src, some mappedOrg⟩

/-- A one-organization index used to exercise attribution in the concrete
ingestion examples. -/
def exampleHostersA : List (String × List String) := [("OrgA", ["10.0.0.0/8"])]

/-- Example record: feed `cat1`, ip `10.0.0.1` (owned by `OrgA`), domain `d1`. -/
def recD1 : FeedRecord := ⟨some "10.0.0.1", some "d1", some "cat1", none, none⟩

/-- Example record: like `recD1` but with domain `d2`. -/
def recD2 : FeedRecord := ⟨some "10.0.0.1", some "d2", some "cat1", none, none⟩

/-! ### Step 3 — `count_unique_slds` (counts/unique_slds.py)

The counting core of `count_unique_slds` (lines 211-282) is embedded at the
level of the `(org, sld)` pairs it inserts into `org_slds`.  A run is
parameterized by the partition of those pairs into flush batches (the code
flushes once per input file; the embedding allows any batching, which covers
any flush policy).  Each flush writes the batch's distinct pairs as lines
`org|sld`; the merge step concatenates all spill files; `sort -u` yields the
sorted distinct lines (byte order, i.e. the C locale); the count step reads
the prefix of each line before the first `|` and increments that
organization's counter; the final loop sorts the counter items by descending
count (Python's `sorted` is stable) and keeps those at or above the
threshold. -/

/-- An `(organization, sld)` pair as inserted into `org_slds`
(unique_slds.py line 238). -/
abbrev SPair := Str × Str

/-- The line `f"{org}|{s}"` written for a pair (unique_slds.py line 221). -/
def encodePair (p : SPair) : Str := p.1 ++ '|' :: p.2

/-- The organization read back from a line by
`org, _sld = line.strip().split("|", 1)` (unique_slds.py line 265): the
prefix before the first `|`. -/
def decodeOrg (l : Str) : Str := l.takeWhile (fun c => !(c == '|'))

/-- The lines one `flush()` writes (unique_slds.py lines 214-223): the
batch's distinct pairs — `org_slds` is a dict of sets, so duplicates within a
batch collapse.  The sets' iteration order is arbitrary and irrelevant here,
because the merged file is sorted wholesale; first-occurrence order is used. -/
def flushLines (batch : List SPair) : List Str := batch.dedup.map encodePair

/-- The concatenated `all_pairs.txt` (unique_slds.py lines 248-253). -/
def mergedFile (batches : List (List SPair)) : List Str :=
  (batches.map flushLines).flatten

/-- Byte-order comparison of two lines, as `sort` compares them under the C
locale (ASCII lines, so codepoint order is byte order). -/
def leChars : Str → Str → Bool
  | [], _ => true
  | _ :: _, [] => false
  | a :: as, b :: bs =>
    if a.toNat < b.toNat then true
    else if b.toNat < a.toNat then false
    else leChars as bs

/-- `all_pairs_unique.txt` as produced by `sort -u` (unique_slds.py line 256):
the distinct lines of the merged file in sorted order. -/
def sortedUniqueLines (batches : List (List SPair)) : List Str :=
  (List.insertionSort (fun a b => leChars a b = true) (mergedFile batches)).dedup

/-- `counts[org] += 1` on an association list keyed by organization, keeping
insertion order like a Python dict. -/
def bump : List (Str × Nat) → Str → List (Str × Nat)
  | [], o => [(o, 1)]
  | (k, n) :: t, o => if k = o then (k, n + 1) :: t else (k, n) :: bump t o

/-- The `counts` dict after the counting loop (unique_slds.py lines 261-266),
as an association list in insertion order. -/
def countsRows (batches : List (List SPair)) : List (Str × Nat) :=
  (sortedUniqueLines batches).foldl (fun acc l => bump acc (decodeOrg l)) []

/-- `counts.get(org, 0)`: lookup under key `o` in the association list
(keys are unique, so first-match lookup is dict lookup). -/
def lookupCount : List (Str × Nat) → Str → Nat
  | [], _ => 0
  | r :: t, o => if r.1 = o then r.2 else lookupCount t o

/-- The distinct-SLD count the run computes for one organization. -/
def orgCount (batches : List (List SPair)) (o : Str) : Nat :=
  lookupCount (countsRows batches) o

/-- The order of `sorted(counts.items(), key=lambda x: -x[1])`
(unique_slds.py line 279): descending count. -/
def countGe (a b : Str × Nat) : Prop := b.2 ≤ a.2

instance : DecidableRel countGe := fun a b => Nat.decLe b.2 a.2

/-- The `(Organization, domaincount)` rows written to the output CSV
(unique_slds.py lines 276-282): counter items sorted stably by descending
count, keeping those with `count >= threshold` (the joined `cidrs` column
carries no counting information and is omitted). -/
def outputRows (batches : List (List SPair)) (threshold : Nat) : List (Str × Nat) :=
  (List.insertionSort countGe (countsRows batches)).filter (fun r => threshold ≤ r.2)

/-- The configured threshold's default,
`int(cfg.get("params", {}).get("threshold_sld_count", 100))`
(unique_slds.py line 203). -/
def threshold_sld_count_default : Nat := 100

/-- Specification-side definition: the number of distinct slds paired with
organization `o` anywhere in the input stream. -/
def distinctCount (pairs : List SPair) (o : Str) : Nat :=
  (((pairs.filter (fun p => p.1 == o)).map Prod.snd).dedup).length

/-- The ordering the spec claims for output rows: descending count with
ascending organization name breaking ties. -/
def specRowOrder (a b : Str × Nat) : Prop :=
  b.2 < a.2 ∨ (a.2 = b.2 ∧ leChars a.1 b.1 = true)

instance : DecidableRel specRowOrder := fun _ _ => by
  unfold specRowOrder; infer_instance

/-! ### Step 4 — capacity metrics (counts/capacity.py) -/

/-- Decimal digit character (`'0'`-`'9'`). -/
def digitChar (d : Nat) : Char := Char.ofNat (48 + d)

/-- Decimal rendering of a number below 1000 (octets and prefix lengths). -/
def decChars (n : Nat) : Str :=
  if n < 10 then [digitChar n]
  else if n < 100 then [digitChar (n / 10), digitChar (n % 10)]
  else [digitChar (n / 100), digitChar (n / 10 % 10), digitChar (n % 10)]

/-- `str(net)` for a parsed IPv4 network: the dotted-quad network address,
a slash and the prefix length. -/
def netToStr (net : NetV4) : String :=
  ⟨decChars (net.1 / 2 ^ 24 % 256) ++ '.' :: decChars (net.1 / 2 ^ 16 % 256) ++
    '.' :: decChars (net.1 / 2 ^ 8 % 256) ++ '.' :: decChars (net.1 % 256) ++
    '/' :: decChars net.2⟩

/-- One iteration of the normalize/dedup loop of `safe_parse_ranges`
(capacity.py lines 56-68): parse the candidate with
`ip_network(·, strict=False)`, skip it if that fails (with
`include_ipv6=False`, IPv6 candidates are likewise excluded), and append its
normalized string unless already present. -/
def sprStep (out : List String) (c : String) : List String :=
  match parseNetV4 false c.data with
  | none => out
  | some net =>
    if netToStr net ∈ out then out else out ++ [netToStr net]

/-- `safe_parse_ranges` (capacity.py lines 36-68) from the candidate strings
onward: fold `sprStep` over the candidates.  The function returns only this
list — no skip counter exists anywhere in its body. -/
def safe_parse_ranges (cand : List String) : List String :=
  cand.foldl sprStep []

/-- Specification-side definition (the source computes no such value): the
number of candidate entries `safe_parse_ranges` drops as malformed. -/
def skippedCount (cand : List String) : Nat :=
  (cand.filter (fun c => (parseNetV4 false c.data).isNone)).length

/-- `cidr_count_addrs` (capacity.py lines 70-81): the candidate count and the
sum of `net.num_addresses = 2^(32-plen)` over the candidates that parse
(`strict=False`; unparsable entries contribute nothing). -/
def cidr_count_addrs (cidrs : List String) : Nat × Nat :=
  (cidrs.length,
    cidrs.foldl (fun t c =>
      match parseNetV4 false c.data with
      | some net => t + 2 ^ (32 - net.2)
      | none => t) 0)

/-- The `avg_domains_per_ip` column (capacity.py lines 106-109, and
merge/join_capacity.py lines 110-113): `domaincount / total_ips` when
`total_ips > 0`, else exactly `0.0`.  CPython float division is modelled as
exact division in `ℚ`. -/
def avg_domains_per_ip (domaincount total_ips : Nat) : ℚ :=
  if 0 < total_ips then (domaincount : ℚ) / total_ips else 0

/-! ### Temporary-file lifecycle of `count_unique_slds`

`count_unique_slds` (unique_slds.py lines 211-267) creates its flush files
under `tmpdir` (lines 217-222), concatenates them into `all_pairs.txt` while
removing each flush file (lines 248-253), runs `sort -u` into
`all_pairs_unique.txt` and removes `all_pairs.txt` (lines 256-257), then
counts and removes `all_pairs_unique.txt` (lines 262-267).  The function body
contains no `try`/`finally` and no exception handler, so when
`subprocess.run(["sort", ...], check=True)` raises `CalledProcessError` the
exception propagates immediately.  The event trace below records exactly the
creations and removals the code performs in program order for a run with `n`
flush files whose external sort exits with status `sortOk`; on failure the
trace simply stops at the raise (crediting no partial `sort` output, which is
the most favorable reading for a cleanup claim). -/

/-- The temporary files one invocation can create. -/
inductive TmpFile where
  | spill (i : Nat)
  | mergedAll
  | sortedUnique
deriving DecidableEq

/-- A filesystem event in the scratch directory. -/
inductive FileEvent where
  | create (f : TmpFile)
  | remove (f : TmpFile)
deriving DecidableEq

/-- The event trace of one `count_unique_slds` invocation, as described above. -/
def tmpTrace (n : Nat) (sortOk : Bool) : List FileEvent :=
  ((List.range n).map (fun i => FileEvent.create (TmpFile.spill i)))
    ++ [FileEvent.create TmpFile.mergedAll]
    ++ ((List.range n).map (fun i => FileEvent.remove (TmpFile.spill i)))
    ++ (if sortOk then
          [FileEvent.create TmpFile.sortedUnique,
           FileEvent.remove TmpFile.mergedAll,
           FileEvent.remove TmpFile.sortedUnique]
        else [])

/-- Apply one event to the list of live temporary files. -/
def applyEvent (live : List TmpFile) : FileEvent → List TmpFile
  | .create f => if f ∈ live then live else live ++ [f]
  | .remove f => live.erase f

/-- The temporary files still on disk when the invocation returns (success)
or when the `CalledProcessError` escapes it (failure). -/
def liveAfter (n : Nat) (sortOk : Bool) : List TmpFile :=
  (tmpTrace n sortOk).foldl applyEvent []

/-- A record whose `"ip"` key is absent (used to exercise the skip path). -/
def noIpRecord : FeedRecord := ⟨none, some "d3", some "cat1", none, none⟩

/-- A record whose `"feed"` key is absent but whose ip is valid. -/
def noFeedRecord : FeedRecord := ⟨some "10.0.0.1", none, none, some "cat1", none⟩

/-- The domain-only record `{"domain": "example.com", "source": "feedX",
"_org": "OrgA"}` that `ingest_and_export` builds at runner.py line 305. -/
def domainOnlyRecord : FeedRecord := runnerDomainRecord "example.com" "feedX" "OrgA"

instance : IsTotal (Str × Nat) countGe := ⟨fun a b => Nat.le_total b.2 a.2⟩

instance : IsTrans (Str × Nat) countGe := ⟨fun _ _ _ hab hbc => Nat.le_trans hbc hab⟩

/-- A two-spill-file partition of a small input stream, with the duplicate
pair `(OrgA, d1)` spanning both spill files. -/
def witnessBatchesA : List (List SPair) :=
  [[("OrgA".data, "d1".data)], [("OrgA".data, "d1".data), ("OrgA".data, "d2".data)]]

/-- The same multiset of pairs as `witnessBatchesA`, flushed as one batch in a
different order. -/
def witnessBatchesB : List (List SPair) :=
  [[("OrgA".data, "d1".data), ("OrgA".data, "d2".data), ("OrgA".data, "d1".data)]]

/-- The tie-break example: two organizations, `Ab` and `A`, with one sld each. -/
def tieBatches : List (List SPair) :=
  [[("Ab".data, "x".data), ("A".data, "y".data)]]

/-- A candidate list with one valid and one malformed CIDR string. -/
def candExample : List String := ["10.0.0.0/8", "nonsense"]

/-- Like `candExample` but with a second malformed entry (`999.9.9.9/8` has an
out-of-range octet). -/
def candExampleMore : List String := ["10.0.0.0/8", "nonsense", "999.9.9.9/8"]

/-- A one-CIDR list whose network spans 256 addresses. -/
def capCidrsExample : List String := ["10.0.0.0/24"]

end HosterBenchmark

namespace HosterBenchmark

/-! ## Lemmas about the `Processor` state -/

theorem ProcState.ext' {s t : ProcState} (h1 : s.seen = t.seen)
    (h2 : s.shared = t.shared) : s = t := by
  cases s; cases t; cases h1; cases h2; rfl

theorem seen_addSeen (s : ProcState) (o k v : String) (o' k' : String) :
    (addSeen s o k v).seen o' k'
      = if o' = o ∧ k' = k then insert v (s.seen o' k') else s.seen o' k' := by
  unfold addSeen
  rfl

theorem shared_addSeen (s : ProcState) (o k v : String) :
    (addSeen s o k v).shared = s.shared := rfl

theorem mem_addSeen_self (s : ProcState) (o k v : String) :
    v ∈ (addSeen s o k v).seen o k := by
  rw [seen_addSeen, if_pos ⟨rfl, rfl⟩]
  exact Finset.mem_insert_self v _

theorem mem_addSeen_of_mem (s : ProcState) {o' k' x : String} (o k v : String)
    (hx : x ∈ s.seen o' k') : x ∈ (addSeen s o k v).seen o' k' := by
  rw [seen_addSeen]
  by_cases h : o' = o ∧ k' = k
  · rw [if_pos h]
    rcases h with ⟨rfl, rfl⟩
    exact Finset.mem_insert_of_mem hx
  · rwa [if_neg h]

theorem addSeen_of_mem {s : ProcState} {o k v : String} (hv : v ∈ s.seen o k) :
    addSeen s o k v = s := by
  refine ProcState.ext' ?_ rfl
  funext o' k'
  rw [seen_addSeen]
  by_cases h : o' = o ∧ k' = k
  · rw [if_pos h]
    rcases h with ⟨rfl, rfl⟩
    exact Finset.insert_eq_self.mpr hv
  · rw [if_neg h]

theorem ingest_record_skip (hs : List (String × List String)) (fp : List (String × Bool))
    (s : ProcState) (r : FeedRecord)
    (h : truthy r.ip = false ∨ truthy r.feed = false) :
    ingest_record hs fp s r = s := by
  rw [ingest_record, if_pos]
  rcases h with h | h <;> simp [h]

theorem ingest_record_idem (hs : List (String × List String)) (fp : List (String × Bool))
    (s : ProcState) (r : FeedRecord) :
    ingest_record hs fp (ingest_record hs fp s r) r = ingest_record hs fp s r := by
  by_cases hskip : (!truthy r.ip || !truthy r.feed) = true
  · conv_lhs => rw [ingest_record]
    rw [if_pos hskip]
  · by_cases howner : (find_owner hs (r.ip.getD "") == "UNKNOWN") = true
    · conv_lhs => rw [ingest_record]
      rw [if_neg hskip, if_pos howner]
    · have hexp : ingest_record hs fp s r
          = addSeen
              (if policyGet fp (r.feed.getD "") && truthy r.domain
               then addSeen s (find_owner hs (r.ip.getD ""))
                      ((r.feed.getD "") ++ "_domains") (r.domain.getD "")
               else s)
              (find_owner hs (r.ip.getD "")) ((r.feed.getD "") ++ "_ips") (r.ip.getD "") := by
        rw [ingest_record, if_neg hskip, if_neg howner]
      have hip : (r.ip.getD "") ∈
          (ingest_record hs fp s r).seen (find_owner hs (r.ip.getD ""))
            ((r.feed.getD "") ++ "_ips") := by
        rw [hexp]
        exact mem_addSeen_self _ _ _ _
      conv_lhs => rw [ingest_record]
      rw [if_neg hskip, if_neg howner]
      by_cases hcond : (policyGet fp (r.feed.getD "") && truthy r.domain) = true
      · have hdv : (r.domain.getD "") ∈
            (ingest_record hs fp s r).seen (find_owner hs (r.ip.getD ""))
              ((r.feed.getD "") ++ "_domains") := by
          rw [hexp, if_pos hcond]
          exact mem_addSeen_of_mem _ _ _ _ (mem_addSeen_self _ _ _ _)
        rw [if_pos hcond, addSeen_of_mem hdv, addSeen_of_mem hip]
      · rw [if_neg hcond, addSeen_of_mem hip]

/-! ## C1 — attribution policy of `Resolve` -/

/-- C1 counterexample: the claim says that for the index built from
`{OrgA: ["10.0.0.0/8"], OrgB: ["10.1.0.0/16"]}` resolving `10.1.2.3` returns
`OrgB` (the longest matching prefix).  `Processor._find_owner` scans
organizations in insertion order and returns the first match, so it does not
return `OrgB` here. -/
theorem find_owner_not_longest_match :
    find_owner exampleHosters "10.1.2.3" ≠ "OrgB" := by decide

/-- C1 (amended): `Processor._find_owner` implements first-registered-match,
not longest-prefix-match: on the example index it returns `OrgA` for
`10.1.2.3` (covered by both ranges, but `OrgA` is registered first) as well
as for `10.2.3.4`, and `UNKNOWN` for the uncovered `11.0.0.1`. -/
theorem find_owner_first_match_example :
    find_owner exampleHosters "10.1.2.3" = "OrgA" ∧
    find_owner exampleHosters "10.2.3.4" = "OrgA" ∧
    find_owner exampleHosters "11.0.0.1" = "UNKNOWN" := by decide

/-! ## C3 — idempotence of recording a triple -/

/-- C3: recording the same `(organization, category, key)` triple any number
of times counts the key at most once.  Repeating `ingest_record` with the
identical record is a no-op on the whole processor state, and on the spec's
example (`d1` submitted twice, `d2` once, all attributed to `OrgA` under feed
`cat1`) the distinct-domain count is 2; submitting `d1` twice alone yields
count 1, not 2. -/
theorem ingest_record_dedup_idempotent :
    (∀ (hs : List (String × List String)) (fp : List (String × Bool))
       (s : ProcState) (r : FeedRecord),
        ingest_record hs fp (ingest_record hs fp s r) r = ingest_record hs fp s r) ∧
    groupedDomainCount (ingestList exampleHostersA [] emptyState [recD1, recD1])
      "OrgA" "cat1" = 1 ∧
    groupedDomainCount (ingestList exampleHostersA [] emptyState [recD1, recD1, recD2])
      "OrgA" "cat1" = 2 :=
  ⟨ingest_record_idem, by decide, by decide⟩

/-! ## C8 — which observations the core accepts -/

/-- C8 counterexample: the claim says an observation carrying only a domain
and no ip is still processed and can contribute to counts.  Ingesting the
domain-only record that `ingest_and_export` builds
(`{"domain": "example.com", "source": "feedX", "_org": "OrgA"}`) leaves the
processor state completely unchanged — it is discarded. -/
theorem domain_only_record_discarded :
    ingest_record exampleHosters [] emptyState domainOnlyRecord = emptyState := rfl

/-- C8 (amended): `Processor.ingest_record` requires both a truthy `"ip"` and
a truthy `"feed"` key; an observation missing either (in particular a
domain-only observation) is discarded with no state change, while a record
with a valid attributable ip and feed does contribute to the counts. -/
theorem ingest_requires_ip_and_feed :
    (∀ (hs : List (String × List String)) (fp : List (String × Bool))
       (s : ProcState) (r : FeedRecord), truthy r.ip = false →
        ingest_record hs fp s r = s) ∧
    (∀ (hs : List (String × List String)) (fp : List (String × Bool))
       (s : ProcState) (r : FeedRecord), truthy r.feed = false →
        ingest_record hs fp s r = s) ∧
    groupedIpCount (ingest_record exampleHostersA [] emptyState recD1) "OrgA" "cat1" = 1 :=
  ⟨fun hs fp s r h => ingest_record_skip hs fp s r (Or.inl h),
   fun hs fp s r h => ingest_record_skip hs fp s r (Or.inr h),
   by decide⟩

/-- C8 witness: the amended theorem applied to the concrete record with no
`"ip"` key. -/
theorem ingest_requires_ip_and_feed_witness :
    truthy noIpRecord.ip = false ∧
    ingest_record exampleHostersA [] emptyState noIpRecord = emptyState :=
  ⟨by decide,
   ingest_requires_ip_and_feed.1 exampleHostersA [] emptyState noIpRecord (by decide)⟩

/-! ## C9 — frame condition of `ingest_record` -/

/-- C9: `ingest_record` leaves the whole counting state (`seen` and `shared`)
unchanged whenever the record's `"feed"` key is missing or falsy or its
`"ip"` key is missing or falsy, regardless of the other keys; and both record
shapes constructed by `ingest_and_export` carry the feed name under
`"source"` with no `"feed"` key, so they are always dropped. -/
theorem ingest_record_frame :
    (∀ (hs : List (String × List String)) (fp : List (String × Bool))
       (s : ProcState) (r : FeedRecord),
        truthy r.feed = false ∨ truthy r.ip = false →
        ingest_record hs fp s r = s) ∧
    (∀ (hs : List (String × List String)) (fp : List (String × Bool))
       (s : ProcState) (ip dom src : String),
        ingest_record hs fp s (runnerIpRecord ip dom src) = s) ∧
    (∀ (hs : List (String × List String)) (fp : List (String × Bool))
       (s : ProcState) (dom src org : String),
        ingest_record hs fp s (runnerDomainRecord dom src org) = s) :=
  ⟨fun hs fp s r h => ingest_record_skip hs fp s r h.symm,
   fun hs fp s _ _ _ => ingest_record_skip hs fp s _ (Or.inr rfl),
   fun hs fp s _ _ _ => ingest_record_skip hs fp s _ (Or.inr rfl)⟩

/-- C9 witness: the frame theorem applied to a concrete record with a valid
ip but no `"feed"` key. -/
theorem ingest_record_frame_witness :
    (truthy noFeedRecord.feed = false ∨ truthy noFeedRecord.ip = false) ∧
    ingest_record exampleHostersA [] emptyState noFeedRecord = emptyState :=
  ⟨Or.inl (by decide),
   ingest_record_frame.1 exampleHostersA [] emptyState noFeedRecord (Or.inl (by decide))⟩

/-! ## Lemmas about the `count_unique_slds` counting core -/

theorem mem_mergedFile {b : List (List SPair)} {l : Str} :
    l ∈ mergedFile b ↔ ∃ p ∈ b.flatten, encodePair p = l := by
  unfold mergedFile flushLines
  constructor
  · intro h
    obtain ⟨ls, hls, hl⟩ := List.mem_flatten.mp h
    obtain ⟨batch, hb, rfl⟩ := List.mem_map.mp hls
    obtain ⟨p, hp, rfl⟩ := List.mem_map.mp hl
    exact ⟨p, List.mem_flatten.mpr ⟨batch, hb, List.mem_dedup.mp hp⟩, rfl⟩
  · rintro ⟨p, hp, rfl⟩
    obtain ⟨batch, hb, hpb⟩ := List.mem_flatten.mp hp
    exact List.mem_flatten.mpr ⟨batch.dedup.map encodePair,
      List.mem_map.mpr ⟨batch, hb, rfl⟩,
      List.mem_map.mpr ⟨p, List.mem_dedup.mpr hpb, rfl⟩⟩

theorem nodup_sortedUniqueLines (b : List (List SPair)) :
    (sortedUniqueLines b).Nodup :=
  List.nodup_dedup _

theorem mem_sortedUniqueLines {b : List (List SPair)} {l : Str} :
    l ∈ sortedUniqueLines b ↔ l ∈ mergedFile b := by
  unfold sortedUniqueLines
  rw [List.mem_dedup, (List.perm_insertionSort _ _).mem_iff]

theorem sortedUniqueLines_perm {b1 b2 : List (List SPair)}
    (h : b1.flatten.Perm b2.flatten) :
    (sortedUniqueLines b1).Perm (sortedUniqueLines b2) := by
  refine (List.perm_ext_iff_of_nodup (nodup_sortedUniqueLines b1)
    (nodup_sortedUniqueLines b2)).mpr fun l => ?_
  rw [mem_sortedUniqueLines, mem_sortedUniqueLines, mem_mergedFile, mem_mergedFile]
  constructor
  · rintro ⟨p, hp, rfl⟩
    exact ⟨p, h.mem_iff.mp hp, rfl⟩
  · rintro ⟨p, hp, rfl⟩
    exact ⟨p, h.mem_iff.mpr hp, rfl⟩

theorem lookupCount_bump (acc : List (Str × Nat)) (k o : Str) :
    lookupCount (bump acc k) o = lookupCount acc o + if k = o then 1 else 0 := by
  induction acc with
  | nil =>
    by_cases h : k = o <;> simp [bump, lookupCount, h]
  | cons a t ih =>
    obtain ⟨ka, na⟩ := a
    by_cases h1 : ka = k
    · subst h1
      by_cases h2 : ka = o <;> simp [bump, lookupCount, h2]
    · by_cases h2 : ka = o
      · subst h2
        have hk : ¬ k = ka := fun he => h1 he.symm
        simp [bump, lookupCount, h1, hk]
      · simp [bump, lookupCount, h1, h2, ih]

theorem lookupCount_foldl (o : Str) (ls : List Str) :
    ∀ acc, lookupCount (ls.foldl (fun acc l => bump acc (decodeOrg l)) acc) o
      = lookupCount acc o + ls.countP (fun l => decodeOrg l == o) := by
  induction ls with
  | nil => intro acc; simp
  | cons l t ih =>
    intro acc
    rw [List.foldl_cons, ih, lookupCount_bump, List.countP_cons]
    by_cases h : decodeOrg l = o
    · simp [h]
      try omega
    · simp [h]

theorem orgCount_eq_countP (b : List (List SPair)) (o : Str) :
    orgCount b o = (sortedUniqueLines b).countP (fun l => decodeOrg l == o) := by
  unfold orgCount countsRows
  rw [lookupCount_foldl]
  simp [lookupCount]

theorem bump_map_fst (acc : List (Str × Nat)) (k : Str) :
    (bump acc k).map Prod.fst
      = if k ∈ acc.map Prod.fst then acc.map Prod.fst
        else acc.map Prod.fst ++ [k] := by
  induction acc with
  | nil => simp [bump]
  | cons a t ih =>
    obtain ⟨ka, na⟩ := a
    by_cases h1 : ka = k
    · subst h1
      simp [bump]
    · have hk : ¬ k = ka := fun he => h1 he.symm
      by_cases hm : k ∈ t.map Prod.fst <;> simp [bump, h1, hk, hm, ih]

theorem nodup_bump {acc : List (Str × Nat)} (k : Str)
    (h : (acc.map Prod.fst).Nodup) : ((bump acc k).map Prod.fst).Nodup := by
  rw [bump_map_fst]
  by_cases hm : k ∈ acc.map Prod.fst
  · rwa [if_pos hm]
  · rw [if_neg hm]
    simp [List.nodup_append, h, hm]

theorem foldl_bump_keys_nodup (ls : List Str) :
    ∀ acc : List (Str × Nat), (acc.map Prod.fst).Nodup →
      (((ls.foldl (fun acc l => bump acc (decodeOrg l)) acc).map Prod.fst)).Nodup := by
  induction ls with
  | nil => intro acc h; exact h
  | cons l t ih => intro acc h; exact ih _ (nodup_bump _ h)

theorem countsRows_keys_nodup (b : List (List SPair)) :
    ((countsRows b).map Prod.fst).Nodup :=
  foldl_bump_keys_nodup _ [] (by simp)

theorem lookupCount_eq_of_mem {rows : List (Str × Nat)}
    (hnd : (rows.map Prod.fst).Nodup) {r : Str × Nat} (hr : r ∈ rows) :
    lookupCount rows r.1 = r.2 := by
  induction rows with
  | nil => cases hr
  | cons a t ih =>
    rw [List.map_cons, List.nodup_cons] at hnd
    rcases List.mem_cons.mp hr with rfl | hr'
    · rw [lookupCount, if_pos rfl]
    · have ha : ¬ a.1 = r.1 := fun he =>
        hnd.1 (he ▸ List.mem_map.mpr ⟨r, hr', rfl⟩)
      rw [lookupCount, if_neg ha]
      exact ih hnd.2 hr'

theorem exists_of_lookupCount_pos {rows : List (Str × Nat)} {o : Str}
    (h : 0 < lookupCount rows o) :
    ∃ r ∈ rows, r.1 = o ∧ r.2 = lookupCount rows o := by
  induction rows with
  | nil => simp [lookupCount] at h
  | cons a t ih =>
    by_cases ha : a.1 = o
    · exact ⟨a, List.mem_cons_self a t, ha, by rw [lookupCount, if_pos ha]⟩
    · rw [lookupCount, if_neg ha] at h
      obtain ⟨r, hr, h1, h2⟩ := ih h
      exact ⟨r, List.mem_cons_of_mem _ hr, h1, by rw [lookupCount, if_neg ha]; exact h2⟩

theorem mem_outputRows_iff (b : List (List SPair)) (t : Nat) (o : Str) :
    o ∈ (outputRows b t).map Prod.fst
      ↔ ∃ r ∈ countsRows b, r.1 = o ∧ t ≤ r.2 := by
  unfold outputRows
  constructor
  · intro h
    obtain ⟨r, hr, rfl⟩ := List.mem_map.mp h
    obtain ⟨hr1, hr2⟩ := List.mem_filter.mp hr
    exact ⟨r, (List.perm_insertionSort countGe _).mem_iff.mp hr1, rfl,
      by simpa using hr2⟩
  · rintro ⟨r, hr, rfl, hle⟩
    exact List.mem_map.mpr ⟨r, List.mem_filter.mpr
      ⟨(List.perm_insertionSort countGe _).mem_iff.mpr hr, by simpa using hle⟩, rfl⟩

/-! ## C2 — partition invariance of the external-sort distinct count -/

/-- C2: for any multiset of `(organization, key)` pairs, the distinct-count
map computed by the flush/merge/`sort -u`/count pipeline is the same for any
two batchings of the same pairs (hence for every flush-threshold policy),
even when duplicate pairs span different spill files. -/
theorem orgCount_partition_invariant (b1 b2 : List (List SPair))
    (h : b1.flatten.Perm b2.flatten) (o : Str) :
    orgCount b1 o = orgCount b2 o := by
  rw [orgCount_eq_countP, orgCount_eq_countP]
  exact List.Perm.countP_eq _ (sortedUniqueLines_perm h)

/-- C2 witness: the invariance theorem applied to two concrete batchings of
the same three pairs, with the duplicate `(OrgA, d1)` spanning two spill
files in one of them. -/
theorem orgCount_partition_invariant_witness :
    witnessBatchesA.flatten.Perm witnessBatchesB.flatten ∧
    orgCount witnessBatchesA "OrgA".data = orgCount witnessBatchesB "OrgA".data :=
  ⟨by decide, orgCount_partition_invariant witnessBatchesA witnessBatchesB (by decide) _⟩

/-! ## C6 — ordering of the output rows -/

/-- C6 counterexample: the claim says output rows are sorted by descending
domain count with ascending organization name breaking ties.  For the input
pairs `(Ab, x), (A, y)` and threshold 1 both organizations count 1, and the
produced order keeps `Ab` before `A` (the order in which they first appear in
the byte-sorted pair file, where `Ab|x` sorts before `A|y` because
`'b' < '|'`), violating the claimed ordering. -/
theorem outputRows_tie_order_not_by_name :
    ¬ List.Pairwise specRowOrder (outputRows tieBatches 1) := by decide

/-- C6 (amended): output rows are sorted by descending domain count only;
between rows of equal count the stable sort keeps the counter's insertion
order (first appearance in the byte-sorted pair file), which — as the
concrete conjunct shows — is not ascending organization name. -/
theorem outputRows_sorted_desc_count :
    (∀ (b : List (List SPair)) (t : Nat), List.Pairwise countGe (outputRows b t)) ∧
    outputRows tieBatches 1 = [("Ab".data, 1), ("A".data, 1)] :=
  ⟨fun b t => List.Pairwise.sublist (List.filter_sublist _)
      (List.sorted_insertionSort countGe (countsRows b)),
   by decide⟩

/-! ## C10 — threshold filtering of the output rows -/

/-- C10: for a positive threshold (the configured default is 100), an
organization appears as a row of the output CSV written by
`count_unique_slds` if and only if its distinct-SLD count is at least the
threshold; organizations below it are silently omitted. -/
theorem outputRows_threshold_iff :
    threshold_sld_count_default = 100 ∧
    ∀ (b : List (List SPair)) (t : Nat) (o : Str), 1 ≤ t →
      (o ∈ (outputRows b t).map Prod.fst ↔ t ≤ orgCount b o) := by
  refine ⟨rfl, fun b t o ht => ?_⟩
  rw [mem_outputRows_iff]
  constructor
  · rintro ⟨r, hr, rfl, hle⟩
    have hl := lookupCount_eq_of_mem (countsRows_keys_nodup b) hr
    show t ≤ lookupCount (countsRows b) r.1
    rw [hl]
    exact hle
  · intro hle
    have hpos : 0 < lookupCount (countsRows b) o := Nat.lt_of_lt_of_le ht hle
    obtain ⟨r, hr, h1, h2⟩ := exists_of_lookupCount_pos hpos
    exact ⟨r, hr, h1, by rw [h2]; exact hle⟩

/-- C10 witness: the threshold characterization applied to a concrete run
with one pair and threshold 1. -/
theorem outputRows_threshold_iff_witness :
    (1 : Nat) ≤ 1 ∧
    ("OrgA".data ∈ (outputRows [[("OrgA".data, "d1".data)]] 1).map Prod.fst
      ↔ 1 ≤ orgCount [[("OrgA".data, "d1".data)]] "OrgA".data) :=
  ⟨Nat.le_refl 1, outputRows_threshold_iff.2 [[("OrgA".data, "d1".data)]] 1 "OrgA".data
    (Nat.le_refl 1)⟩

/-! ## Lemmas about the temporary-file trace -/

theorem spill_fresh (n : Nat) :
    TmpFile.spill n ∉ (List.range n).map TmpFile.spill := by
  intro h
  obtain ⟨i, hi, he⟩ := List.mem_map.mp h
  have : i = n := by injection he
  subst this
  exact Nat.lt_irrefl i (List.mem_range.mp hi)

theorem spill_create_foldl (n : Nat) :
    ((List.range n).map (fun i => FileEvent.create (TmpFile.spill i))).foldl applyEvent []
      = (List.range n).map TmpFile.spill := by
  induction n with
  | zero => rfl
  | succ n ih =>
    rw [List.range_succ, List.map_append, List.map_append, List.foldl_append, ih]
    simp [applyEvent, spill_fresh n]

theorem removes_foldl (n : Nat) :
    ∀ rest : List TmpFile, (∀ i, i < n → TmpFile.spill i ∉ rest) →
      ((List.range n).map (fun i => FileEvent.remove (TmpFile.spill i))).foldl applyEvent
        ((List.range n).map TmpFile.spill ++ rest) = rest := by
  induction n with
  | zero => intro rest _; simp
  | succ n ih =>
    intro rest h
    have hfresh : ∀ i, i < n → TmpFile.spill i ∉ (TmpFile.spill n :: rest) := by
      intro i hi hmem
      rcases List.mem_cons.mp hmem with he | hm
      · have : i = n := by injection he
        omega
      · exact h i (Nat.lt_succ_of_lt hi) hm
    rw [List.range_succ, List.map_append, List.map_append, List.foldl_append]
    simp only [List.map_cons, List.map_nil]
    rw [List.append_assoc, List.singleton_append, ih (TmpFile.spill n :: rest) hfresh]
    simp [applyEvent]

theorem liveAfter_sortOk (n : Nat) : liveAfter n true = [] := by
  have hm : TmpFile.mergedAll ∉ (List.range n).map TmpFile.spill := by
    intro h
    obtain ⟨i, _, he⟩ := List.mem_map.mp h
    exact TmpFile.noConfusion he
  have h2 : ∀ i, i < n → TmpFile.spill i ∉ [TmpFile.mergedAll] := by
    intro i _ hmem
    exact TmpFile.noConfusion (List.mem_singleton.mp hmem)
  unfold liveAfter tmpTrace
  rw [if_pos rfl]
  simp only [List.foldl_append, List.foldl_cons, List.foldl_nil, spill_create_foldl]
  rw [show applyEvent ((List.range n).map TmpFile.spill) (FileEvent.create TmpFile.mergedAll)
        = (List.range n).map TmpFile.spill ++ [TmpFile.mergedAll] from by
      simp [applyEvent, hm]]
  rw [removes_foldl n [TmpFile.mergedAll] h2]
  rfl

theorem liveAfter_sortFail (n : Nat) : liveAfter n false = [TmpFile.mergedAll] := by
  have hm : TmpFile.mergedAll ∉ (List.range n).map TmpFile.spill := by
    intro h
    obtain ⟨i, _, he⟩ := List.mem_map.mp h
    exact TmpFile.noConfusion he
  have h2 : ∀ i, i < n → TmpFile.spill i ∉ [TmpFile.mergedAll] := by
    intro i _ hmem
    exact TmpFile.noConfusion (List.mem_singleton.mp hmem)
  unfold liveAfter tmpTrace
  rw [if_neg (by simp)]
  simp only [List.foldl_append, List.foldl_cons, List.foldl_nil, spill_create_foldl]
  rw [show applyEvent ((List.range n).map TmpFile.spill) (FileEvent.create TmpFile.mergedAll)
        = (List.range n).map TmpFile.spill ++ [TmpFile.mergedAll] from by
      simp [applyEvent, hm]]
  rw [removes_foldl n [TmpFile.mergedAll] h2]

/-! ## C4 — temporary-file cleanup -/

/-- C4 counterexample: the claim says every temporary file is deleted before
the invocation finishes on both success and failure, with best-effort cleanup
before an I/O error propagates.  In the run with one spill file whose
external sort fails, the invocation propagates the error with the merged
concatenation file still on disk — `count_unique_slds` has no handler or
`finally` block, so no cleanup happens. -/
theorem tmpfiles_not_cleaned_on_sort_failure :
    liveAfter 1 false ≠ [] := by decide

/-- C4 (amended): on success every temporary file created by the invocation
is deleted before it returns, but on external-sort failure the merged
concatenation file `all_pairs.txt` is left on disk when the error propagates
(the spill files themselves have already been deleted during concatenation);
no cleanup is attempted on the failure path. -/
theorem tmpfiles_cleanup_success_only :
    (∀ n : Nat, liveAfter n true = []) ∧
    (∀ n : Nat, liveAfter n false = [TmpFile.mergedAll]) :=
  ⟨liveAfter_sortOk, liveAfter_sortFail⟩

/-! ## Lemmas about `safe_parse_ranges` -/

theorem sprStep_nodup {out : List String} (c : String) (h : out.Nodup) :
    (sprStep out c).Nodup := by
  unfold sprStep
  split
  · exact h
  · split
    · exact h
    · next hm => simp [List.nodup_append, h, hm]

theorem sprStep_mono {out : List String} {x : String} (c : String)
    (hx : x ∈ out) : x ∈ sprStep out c := by
  unfold sprStep
  split
  · exact hx
  · split
    · exact hx
    · exact List.mem_append_left _ hx

theorem sprStep_adds {out : List String} {c : String} {net : NetV4}
    (hp : parseNetV4 false c.data = some net) : netToStr net ∈ sprStep out c := by
  simp only [sprStep, hp]
  split
  · next hm => exact hm
  · exact List.mem_append_right _ (List.mem_singleton.mpr rfl)

theorem foldl_sprStep_nodup (cand : List String) :
    ∀ out : List String, out.Nodup → (cand.foldl sprStep out).Nodup := by
  induction cand with
  | nil => intro out h; exact h
  | cons c t ih => intro out h; exact ih _ (sprStep_nodup c h)

theorem mem_foldl_sprStep (cand : List String) :
    ∀ {out : List String} {x : String}, x ∈ out → x ∈ cand.foldl sprStep out := by
  induction cand with
  | nil => intro out x hx; exact hx
  | cons c t ih => intro out x hx; exact ih (sprStep_mono c hx)

theorem foldl_sprStep_adds (cand : List String) :
    ∀ {out : List String} {c : String} {net : NetV4}, c ∈ cand →
      parseNetV4 false c.data = some net → netToStr net ∈ cand.foldl sprStep out := by
  induction cand with
  | nil => intro _ _ _ hc _; cases hc
  | cons a t ih =>
    intro out c net hc hp
    rcases List.mem_cons.mp hc with rfl | hc'
    · exact mem_foldl_sprStep t (sprStep_adds hp)
    · exact ih hc' hp

/-! ## C5 — malformed-CIDR handling when building the structures -/

/-- C5 counterexample: the claim says a count of skipped malformed entries is
returned or logged to the caller.  `safe_parse_ranges` returns only the
normalized list: two candidate lists that differ in their number of malformed
entries produce identical results, so no skip count is recoverable from what
the caller receives (and the function body contains no counter or log call). -/
theorem safe_parse_ranges_no_skip_count :
    safe_parse_ranges candExample = safe_parse_ranges candExampleMore ∧
    skippedCount candExample ≠ skippedCount candExampleMore := by decide

/-- C5 (amended): malformed CIDR strings are skipped without aborting the
build and duplicates are deduplicated — every candidate that parses
contributes its normalized form, and the result has no duplicates — but no
count of the skipped entries is returned or logged. -/
theorem safe_parse_ranges_skips_and_dedups :
    ∀ cand : List String,
      (safe_parse_ranges cand).Nodup ∧
      ∀ c, c ∈ cand → ∀ net : NetV4, parseNetV4 false c.data = some net →
        netToStr net ∈ safe_parse_ranges cand :=
  fun cand =>
    ⟨foldl_sprStep_nodup cand [] List.nodup_nil,
     fun _ hc _ hp => foldl_sprStep_adds cand hc hp⟩

/-- C5 witness: the amended theorem applied to the concrete candidate list,
showing the valid entry's normalized form is kept while the malformed entry
is skipped. -/
theorem safe_parse_ranges_skips_and_dedups_witness :
    (safe_parse_ranges candExample).Nodup ∧
    netToStr (167772160, 8) ∈ safe_parse_ranges candExample :=
  ⟨(safe_parse_ranges_skips_and_dedups candExample).1,
   (safe_parse_ranges_skips_and_dedups candExample).2 "10.0.0.0/8" (by decide)
     (167772160, 8) (by decide)⟩

/-! ## C7 — the average-domains-per-address column -/

/-- C7: for every organization row, `avg_domains_per_address` is exactly `0`
when the summed address count is `0`, and is exactly
`domain_count / total_addresses` (so that multiplying back by
`total_addresses` recovers `domain_count`) when it is positive. -/
theorem avg_domains_per_address_formula :
    ∀ (dc : Nat) (cs : List String),
      ((cidr_count_addrs cs).2 = 0 →
        avg_domains_per_ip dc (cidr_count_addrs cs).2 = 0) ∧
      (0 < (cidr_count_addrs cs).2 →
        avg_domains_per_ip dc (cidr_count_addrs cs).2
            = (dc : ℚ) / ((cidr_count_addrs cs).2 : ℚ) ∧
          avg_domains_per_ip dc (cidr_count_addrs cs).2 * ((cidr_count_addrs cs).2 : ℚ)
            = (dc : ℚ)) := by
  intro dc cs
  constructor
  · intro h0
    rw [avg_domains_per_ip, if_neg (by omega)]
  · intro hpos
    have hne : ((cidr_count_addrs cs).2 : ℚ) ≠ 0 :=
      Nat.cast_ne_zero.mpr (Nat.pos_iff_ne_zero.mp hpos)
    refine ⟨by rw [avg_domains_per_ip, if_pos hpos], ?_⟩
    rw [avg_domains_per_ip, if_pos hpos, div_mul_cancel₀ _ hne]

/-- C7 witness: the formula applied to an empty CIDR list (zero addresses)
and to a /24 (256 addresses). -/
theorem avg_domains_per_address_formula_witness :
    ((cidr_count_addrs ([] : List String)).2 = 0 ∧
      avg_domains_per_ip 5 (cidr_count_addrs ([] : List String)).2 = 0) ∧
    (0 < (cidr_count_addrs capCidrsExample).2 ∧
      avg_domains_per_ip 512 (cidr_count_addrs capCidrsExample).2
        = (512 : ℚ) / ((cidr_count_addrs capCidrsExample).2 : ℚ)) :=
  ⟨⟨by decide, (avg_domains_per_address_formula 5 []).1 (by decide)⟩,
   ⟨by decide, ((avg_domains_per_address_formula 512 capCidrsExample).2 (by decide)).1⟩⟩

end HosterBenchmark
